import Mathlib

/-!
# Cache-aside coordinator over a key-value store (`cache/redis.go`)

A shallow embedding of the `cache` package: the keyed mutex registry
(`gcRWMutex`), the cache operations (`Get`, `Set`, `GetOrSet`, `Remove`) and the
lock-guarded execution (`LockRun`), followed by the properties of the design
document that can be stated over a single goroutine.

Effects are passed explicitly.  A `Redis U` value is everything a method of
`*Redis` can reach: the connection with the keyspace behind it, the caller's
memory `U`, the registry `mus` and the state of the mutexes.  Caller-supplied
callbacks (`create`, `fn`) are functions on `Env U`, the part of that state a
closure can reach without going through the registry.
-/

set_option linter.unusedVariables false

namespace Cache

/-! ## Go values -/

/-- Go `error` values that flow through the package. -/
inductive Error where
  /-- The sentinel `redis.Nil`: the key does not exist. -/
  | redisNil
  /-- Any other failure reported by the client (network, server). -/
  | transport (msg : String)
  /-- A failure of `json.Marshal` or `json.Unmarshal`. -/
  | json (msg : String)
  /-- An error built by `fmt.Errorf`, with the formatted message. -/
  | errorf (msg : String)
  /-- An error returned by a caller-supplied callback. -/
  | user (msg : String)
  deriving DecidableEq, Repr

/-- Modelled from the spec: the `Item` struct is declared outside `redis.go`; the
code reads its fields `Value` and `Duration` (the CacheEntry of the data model: a
payload and its time-to-live, a `time.Duration` in nanoseconds). -/
structure Item (V : Type) where
  Value : V
  Duration : Int
  deriving DecidableEq, Repr

/-- How a call of `Set` or `GetOrSet` ends. -/
inductive Outcome where
  /-- The method returned this `error` (`none` is `nil`). -/
  | ret (err : Option Error)
  /-- Run-time failure: `item.Value` was read through a nil `*Item`. -/
  | nilDeref
  /-- The call waits in `mu.Lock()` for a mutex that is already held. -/
  | blocked
  deriving DecidableEq, Repr

/-- The two functions of `encoding/json` the package calls, for payloads `V` and
result sinks `R`.  `Unmarshal data result` gives the error and the sink as the
call leaves it. -/
structure Json (V R : Type) where
  Marshal : V → Except Error String
  Unmarshal : String → R → Option Error × R

/-! ## Go maps with string keys -/

/-- A map with string keys, newest binding first, at most one binding a key. -/
abbrev Table (α : Type) := List (String × α)

/-- Map lookup `m[key]`; `none` for a missing key. -/
def Table.read {α : Type} : Table α → String → Option α
  | [], _ => none
  | (k, a) :: rest, key => if k = key then some a else Table.read rest key

/-- Map deletion `delete(m, key)`. -/
def Table.erase {α : Type} : Table α → String → Table α
  | [], _ => []
  | (k, a) :: rest, key =>
    if k = key then Table.erase rest key else (k, a) :: Table.erase rest key

/-- Map assignment `m[key] = a`. -/
def Table.write {α : Type} (m : Table α) (key : String) (a : α) : Table α :=
  (key, a) :: Table.erase m key

/-! ## The key-value store behind `*redis.Client` -/

/-- A stored value together with the expiration argument it was written with. -/
structure Entry where
  value : String
  expiration : Int
  deriving DecidableEq, Repr

/-- What a callback can reach: the keyspace of the server, the outcomes of the
coming round trips to it (`some msg` is a failed round trip, an exhausted list
means no further failure), and the caller's own memory. -/
structure Env (U : Type) where
  db : Table Entry
  faults : List (Option String)
  user : U
  deriving DecidableEq, Repr

namespace Client

/-- One round trip to the server: takes the next scheduled outcome. -/
def roundTrip {U : Type} (e : Env U) : Option Error × Env U :=
  match e.faults with
  | [] => (none, e)
  | f :: rest => (f.map Error.transport, { e with faults := rest })

/-- Modelled from the spec: `c.Client.Get(ctx, key).Result()` of the imported
client, as the KeyValueStore capability `Get(key) -> bytes | NotFoundError |
OtherError`: the stored bytes, `redis.Nil` for an absent key, or the error of a
failed round trip. -/
def Get {U : Type} (e : Env U) (key : String) : (String × Option Error) × Env U :=
  match roundTrip e with
  | (some err, e1) => (("", some err), e1)
  | (none, e1) =>
    match e1.db.read key with
    | some en => ((en.value, none), e1)
    | none => (("", some Error.redisNil), e1)

/-- Modelled from the spec: `c.Client.Set(ctx, key, value, expiration).Result()` of
the imported client, as the capability `Set(key, bytes, ttl) -> ok | error`: a
failed round trip leaves the keyspace as it was, a successful one binds `key` to
`value` with the expiration, replacing any earlier binding. -/
def Set {U : Type} (e : Env U) (key value : String) (expiration : Int) :
    (String × Option Error) × Env U :=
  match roundTrip e with
  | (some err, e1) => (("", some err), e1)
  | (none, e1) => (("OK", none), { e1 with db := e1.db.write key ⟨value, expiration⟩ })

/-- Modelled from the spec: `c.Client.SetNX(ctx, key, value, expiration).Result()`
of the imported client, as the capability `SetIfAbsent(key, sentinelValue, ttl) ->
acquired:bool | error` with atomic test-and-set: `(false, nil)` and no change when
the key exists, `(true, nil)` after binding it when it does not, an error only for
a failed round trip. -/
def SetNX {U : Type} (e : Env U) (key value : String) (expiration : Int) :
    (Bool × Option Error) × Env U :=
  match roundTrip e with
  | (some err, e1) => ((false, some err), e1)
  | (none, e1) =>
    match e1.db.read key with
    | some _ => ((false, none), e1)
    | none => ((true, none), { e1 with db := e1.db.write key ⟨value, expiration⟩ })

/-- Modelled from the spec: `c.Client.Del(ctx, key)` of the imported client, as the
capability `Delete(key)`: removes the key when the round trip succeeds and reports
how many keys were removed; deleting an absent key is not an error. -/
def Del {U : Type} (e : Env U) (key : String) : (Nat × Option Error) × Env U :=
  match roundTrip e with
  | (some err, e1) => ((0, some err), e1)
  | (none, e1) =>
    ((if (e1.db.read key).isSome then 1 else 0, none), { e1 with db := e1.db.erase key })

/-- Modelled from the spec: `client.Ping(ctx).Result()` of the imported client: one
round trip, answered with `PONG`. -/
def Ping {U : Type} (e : Env U) : (String × Option Error) × Env U :=
  match roundTrip e with
  | (some err, e1) => (("", some err), e1)
  | (none, e1) => (("PONG", none), e1)

end Client

/-! ## The `Redis` value -/

/-- The state behind a `*Redis`: the embedded client with what it reaches (`env`),
the registry `mus` from key to mutex, the next unused mutex address, and the
addresses of the mutexes currently locked.  The registry lock `mu` is taken and
released inside `gcRWMutex`, which is one step here. -/
structure Redis (U : Type) where
  env : Env U
  mus : Table Nat
  nextMutex : Nat
  held : List Nat
  deriving DecidableEq, Repr

/-- A caller-supplied closure: it may use the store and the caller's memory. -/
abbrev Callback (U α : Type) := Env U → α × Env U

/-- `redis.NewClient` followed by `Ping`: `conn` is what the new client for
`host:port`, `password` and `db` reaches; a failed ping gives `(nil, err)`,
otherwise the value starts with an empty registry. -/
def NewRedis {U : Type} (conn : Env U) (host : String) (port : Int) (password : String)
    (db : Int) : Option (Redis U) × Option Error :=
  match Client.Ping conn with
  | ((_, some err), _) => (none, some err)
  | ((_, none), e1) => (some { env := e1, mus := [], nextMutex := 0, held := [] }, none)

namespace Redis

variable {U V R : Type}

/-- `mu.Lock()` on the mutex at address `m`: `none` when it is already held. -/
def Lock (c : Redis U) (m : Nat) : Option (Redis U) :=
  if m ∈ c.held then none else some { c with held := m :: c.held }

/-- `mu.Unlock()` on the mutex at address `m`. -/
def Unlock (c : Redis U) (m : Nat) : Redis U :=
  { c with held := c.held.erase m }

/-- `gcRWMutex`: the mutex registered for `key`, registering a newly allocated one
when `c.mus[key]` is nil. -/
def gcRWMutex (c : Redis U) (key : String) : Nat × Redis U :=
  match c.mus.read key with
  | some m => (m, c)
  | none =>
    (c.nextMutex,
      { c with mus := c.mus.write key c.nextMutex, nextMutex := c.nextMutex + 1 })

/-- The error `LockRun` builds with `fmt.Errorf`. -/
def busyError (id : String) : Error :=
  Error.errorf ("the system is busy. please try again later. id:" ++ id)

/-- `LockRun`: `SetNX` of `id`; on an error of that call the busy error, otherwise
`fn()` with `Del` of `id` deferred to the return. -/
def LockRun (c : Redis U) (id : String) (timeout : Int) (fn : Callback U (Option Error)) :
    Option Error × Redis U :=
  match Client.SetNX c.env id "ok" timeout with
  | ((_, some _), e1) => (some (busyError id), { c with env := e1 })
  | ((_, none), e1) =>
    match fn e1 with
    | (r, e2) => (r, { c with env := (Client.Del e2 id).2 })

/-- `Get`: reads `key` and unmarshals the bytes into `result`; a read error is
returned as it is. -/
def Get (J : Json V R) (c : Redis U) (key : String) (result : R) :
    Option Error × R × Redis U :=
  match Client.Get c.env key with
  | ((_, some err), e1) => (some err, result, { c with env := e1 })
  | ((rel, none), e1) =>
    ((J.Unmarshal rel result).1, (J.Unmarshal rel result).2, { c with env := e1 })

/-- `Set`: under the mutex of `key`, `create()`, `json.Marshal` of the item's value,
and the store write with the item's duration. -/
def Set (J : Json V R) (c : Redis U) (key : String)
    (create : Callback U (Option (Item V) × Option Error)) : Outcome × Redis U :=
  match gcRWMutex c key with
  | (mu, c1) =>
    match Lock c1 mu with
    | none => (Outcome.blocked, c1)
    | some c2 =>
      match create c2.env with
      | ((_, some err), e1) => (Outcome.ret (some err), Unlock { c2 with env := e1 } mu)
      | ((none, none), e1) => (Outcome.nilDeref, Unlock { c2 with env := e1 } mu)
      | ((some item, none), e1) =>
        match J.Marshal item.Value with
        | Except.error err => (Outcome.ret (some err), Unlock { c2 with env := e1 } mu)
        | Except.ok body =>
          match Client.Set e1 key body item.Duration with
          | ((_, err), e2) => (Outcome.ret err, Unlock { c2 with env := e2 } mu)

/-- `GetOrSet`: under the mutex of `key`, a store read; when it returns no error the
bytes are unmarshalled into `result`; otherwise `create()`, `json.Marshal`, the
store write, and `json.Unmarshal` of the bytes just written. -/
def GetOrSet (J : Json V R) (c : Redis U) (key : String) (result : R)
    (create : Callback U (Option (Item V) × Option Error)) : Outcome × R × Redis U :=
  match gcRWMutex c key with
  | (mu, c1) =>
    match Lock c1 mu with
    | none => (Outcome.blocked, result, c1)
    | some c2 =>
      match Client.Get c2.env key with
      | ((rel, none), e0) =>
        (Outcome.ret (J.Unmarshal rel result).1, (J.Unmarshal rel result).2,
          Unlock { c2 with env := e0 } mu)
      | ((_, some _), e0) =>
        match create e0 with
        | ((_, some err), e1) =>
          (Outcome.ret (some err), result, Unlock { c2 with env := e1 } mu)
        | ((none, none), e1) => (Outcome.nilDeref, result, Unlock { c2 with env := e1 } mu)
        | ((some item, none), e1) =>
          match J.Marshal item.Value with
          | Except.error err =>
            (Outcome.ret (some err), result, Unlock { c2 with env := e1 } mu)
          | Except.ok body =>
            match Client.Set e1 key body item.Duration with
            | ((_, some err), e2) =>
              (Outcome.ret (some err), result, Unlock { c2 with env := e2 } mu)
            | ((_, none), e2) =>
              (Outcome.ret (J.Unmarshal body result).1, (J.Unmarshal body result).2,
                Unlock { c2 with env := e2 } mu)

/-- `Remove`: `Del` of `key`, its result dropped. -/
def Remove (c : Redis U) (key : String) : Redis U :=
  { c with env := (Client.Del c.env key).2 }

/-- The mutex `gcRWMutex` hands out for `key` is not locked. -/
def mutexFree (c : Redis U) (key : String) : Prop :=
  (gcRWMutex c key).1 ∉ (gcRWMutex c key).2.held

instance (c : Redis U) (key : String) : Decidable (mutexFree c key) := by
  unfold mutexFree; infer_instance

/-- Every entry of the registry of `c` is an entry of the registry of `d`, with the
same mutex. -/
def registryLe (c d : Redis U) : Prop :=
  ∀ k m, c.mus.read k = some m → d.mus.read k = some m

/-- Addresses in use (registered or locked) lie below the next unused address. -/
def allocated (c : Redis U) : Prop :=
  (∀ k m, c.mus.read k = some m → m < c.nextMutex) ∧ ∀ m ∈ c.held, m < c.nextMutex

end Redis

/-! ## Test fixtures -/

/-- A serializer whose encoding of a string is the string itself. -/
def plainJson : Json String String where
  Marshal := fun v => Except.ok v
  Unmarshal := fun data _ => (none, data)

/-- A factory with an invocation counter in the caller's memory: it adds one to the
counter and produces the value `"v"` with a duration of 60. -/
def countingCreate : Callback Nat (Option (Item String) × Option Error) :=
  fun e => ((some ⟨"v", 60⟩, none), { e with user := e.user + 1 })

/-- A factory with an invocation counter that fails with the error `boom`. -/
def failingCreate : Callback Nat (Option (Item String) × Option Error) :=
  fun e => ((none, some (Error.user "boom")), { e with user := e.user + 1 })

/-- A critical section with an invocation counter that fails with `boom`. -/
def countingFn : Callback Nat (Option Error) :=
  fun e => (some (Error.user "boom"), { e with user := e.user + 1 })

/-- A fresh value over an empty keyspace with no failures scheduled. -/
def emptyRedis : Redis Nat :=
  { env := { db := [], faults := [], user := 0 }, mus := [], nextMutex := 0, held := [] }

/-- A value whose keyspace binds `"k"` to `"old"` and the lock key `"L"` to `"ok"`. -/
def busyRedis : Redis Nat :=
  { env := { db := [("k", ⟨"old", 5⟩), ("L", ⟨"ok", 30⟩)], faults := [], user := 0 },
    mus := [("k", 0)], nextMutex := 1, held := [] }

/-- A value over an empty keyspace whose next round trip fails. -/
def faultyRedis : Redis Nat :=
  { env := { db := [], faults := [some "i/o timeout"], user := 0 },
    mus := [], nextMutex := 0, held := [] }

/-! ## Maps: lookup after deletion and assignment -/

theorem Table.read_erase_self {α : Type} (m : Table α) (key : String) :
    (m.erase key).read key = none := by
  induction m with
  | nil => rfl
  | cons p rest ih =>
    obtain ⟨k, a⟩ := p
    by_cases h : k = key
    · simp [Table.erase, h, ih]
    · simp [Table.erase, Table.read, h, ih]

theorem Table.read_erase_ne {α : Type} (m : Table α) (key other : String)
    (hne : other ≠ key) : (m.erase key).read other = m.read other := by
  induction m with
  | nil => rfl
  | cons p rest ih =>
    obtain ⟨k, a⟩ := p
    by_cases h : k = key
    · have hk : ¬ k = other := fun hko => hne (hko ▸ h)
      simp only [Table.erase, Table.read, if_pos h, if_neg hk, ih]
    · by_cases hko : k = other
      · simp only [Table.erase, Table.read, if_neg h, if_pos hko]
      · simp only [Table.erase, Table.read, if_neg h, if_neg hko, ih]

theorem Table.read_write_self {α : Type} (m : Table α) (key : String) (a : α) :
    (m.write key a).read key = some a := by
  simp [Table.write, Table.read]

theorem Table.read_write_ne {α : Type} (m : Table α) (key other : String) (a : α)
    (hne : other ≠ key) : (m.write key a).read other = m.read other := by
  have h : ¬ key = other := fun h => hne h.symm
  simp [Table.write, Table.read, h, Table.read_erase_ne m key other hne]

/-! ## The store commands -/

namespace Client

variable {U : Type}

theorem roundTrip_db (e : Env U) : (roundTrip e).2.db = e.db := by
  unfold roundTrip
  cases e.faults <;> rfl

theorem roundTrip_user (e : Env U) : (roundTrip e).2.user = e.user := by
  unfold roundTrip
  cases e.faults <;> rfl

/-- A read leaves the keyspace and the caller's memory as they were. -/
theorem Get_frame (e : Env U) (key : String) :
    (Get e key).2.db = e.db ∧ (Get e key).2.user = e.user := by
  have hd := roundTrip_db e
  have hu := roundTrip_user e
  unfold Get
  rcases hrt : roundTrip e with ⟨_ | err, e1⟩
  · rw [hrt] at hd hu
    cases hk : e1.db.read key <;> simp [hk] <;> exact ⟨hd, hu⟩
  · rw [hrt] at hd hu
    exact ⟨hd, hu⟩

/-- A read that returns no error returns the value bound to the key. -/
theorem Get_ok (e e1 : Env U) (key rel : String) (h : Get e key = ((rel, none), e1)) :
    ∃ en, e.db.read key = some en ∧ en.value = rel := by
  have hd := roundTrip_db e
  unfold Get at h
  rcases hrt : roundTrip e with ⟨_ | err, e0⟩
  · rw [hrt] at h hd
    simp only at h hd
    cases hk : e0.db.read key with
    | none => simp [hk] at h
    | some en =>
      simp [hk] at h
      exact ⟨en, by rw [← hd, hk], h.1⟩
  · rw [hrt] at h
    simp at h

/-- A read of an absent key returns an error. -/
theorem Get_absent (e : Env U) (key : String) (h : e.db.read key = none) :
    ∃ err, Get e key = (("", some err), (Get e key).2) := by
  have hd := roundTrip_db e
  unfold Get
  rcases hrt : roundTrip e with ⟨_ | err, e0⟩
  · rw [hrt] at hd
    simp only at hd
    simp [hd, h]
  · simp

/-- A write that returns no error binds the key to the value and the expiration. -/
theorem Set_ok (e e2 : Env U) (key value s : String) (d : Int)
    (h : Set e key value d = ((s, none), e2)) :
    e2.db.read key = some ⟨value, d⟩ ∧ e2.user = e.user := by
  have hu := roundTrip_user e
  unfold Set at h
  rcases hrt : roundTrip e with ⟨_ | err, e0⟩
  · rw [hrt] at h hu
    simp at h hu
    rw [← h.2]
    exact ⟨Table.read_write_self _ _ _, hu⟩
  · rw [hrt] at h
    simp at h

/-- A failed set-if-absent leaves the keyspace and the caller's memory as they were. -/
theorem SetNX_error (e e1 : Env U) (key value : String) (d : Int) (b : Bool) (err : Error)
    (h : SetNX e key value d = ((b, some err), e1)) :
    e1.db = e.db ∧ e1.user = e.user := by
  have hd := roundTrip_db e
  have hu := roundTrip_user e
  unfold SetNX at h
  rcases hrt : roundTrip e with ⟨_ | err0, e0⟩
  · rw [hrt] at h
    simp only at h
    cases hk : e0.db.read key <;> simp [hk] at h
  · rw [hrt] at h hd hu
    simp at h hd hu
    rw [← h.2]
    exact ⟨hd, hu⟩

/-- A delete whose round trip succeeds leaves the key absent. -/
theorem Del_ok (e : Env U) (key : String) (h : (roundTrip e).1 = none) :
    (Del e key).2.db.read key = none := by
  unfold Del
  rcases hrt : roundTrip e with ⟨_ | err, e0⟩
  · exact Table.read_erase_self _ _
  · rw [hrt] at h
    simp at h

theorem Del_user (e : Env U) (key : String) : (Del e key).2.user = e.user := by
  have hu := roundTrip_user e
  unfold Del
  rcases hrt : roundTrip e with ⟨_ | err, e0⟩ <;> rw [hrt] at hu <;> exact hu

end Client

/-! ## The mutex of a key -/

namespace Redis

variable {U V R : Type}

theorem gcRWMutex_env (c : Redis U) (key : String) : (gcRWMutex c key).2.env = c.env := by
  unfold gcRWMutex
  cases c.mus.read key <;> rfl

theorem gcRWMutex_held (c : Redis U) (key : String) : (gcRWMutex c key).2.held = c.held := by
  unfold gcRWMutex
  cases c.mus.read key <;> rfl

/-- With the mutex of `key` free, `Set` runs its body and releases the mutex. -/
theorem Set_free (J : Json V R) (c : Redis U) (key : String)
    (create : Callback U (Option (Item V) × Option Error)) (hfree : mutexFree c key) :
    Set J c key create =
      match create c.env with
      | ((_, some err), e1) =>
        (Outcome.ret (some err), { (gcRWMutex c key).2 with env := e1 })
      | ((none, none), e1) => (Outcome.nilDeref, { (gcRWMutex c key).2 with env := e1 })
      | ((some item, none), e1) =>
        match J.Marshal item.Value with
        | Except.error err =>
          (Outcome.ret (some err), { (gcRWMutex c key).2 with env := e1 })
        | Except.ok body =>
          (Outcome.ret (Client.Set e1 key body item.Duration).1.2,
            { (gcRWMutex c key).2 with env := (Client.Set e1 key body item.Duration).2 }) := by
  have henv := gcRWMutex_env c key
  unfold mutexFree at hfree
  unfold Set
  rcases hg : gcRWMutex c key with ⟨mu, c1⟩
  rw [hg] at hfree henv
  simp only at hfree henv
  simp only [Lock, if_neg hfree, henv]
  rcases hc : create c.env with ⟨⟨item, err⟩, e1⟩
  cases err with
  | some err => simp [Unlock]
  | none =>
    cases item with
    | none => simp [Unlock]
    | some item =>
      simp only
      cases hm : J.Marshal item.Value with
      | error err => simp [Unlock]
      | ok body => simp [Unlock]

/-- With the mutex of `key` free, `GetOrSet` runs its body and releases the mutex. -/
theorem GetOrSet_free (J : Json V R) (c : Redis U) (key : String) (result : R)
    (create : Callback U (Option (Item V) × Option Error)) (hfree : mutexFree c key) :
    GetOrSet J c key result create =
      match Client.Get c.env key with
      | ((rel, none), e0) =>
        (Outcome.ret (J.Unmarshal rel result).1, (J.Unmarshal rel result).2,
          { (gcRWMutex c key).2 with env := e0 })
      | ((_, some _), e0) =>
        match create e0 with
        | ((_, some err), e1) =>
          (Outcome.ret (some err), result, { (gcRWMutex c key).2 with env := e1 })
        | ((none, none), e1) =>
          (Outcome.nilDeref, result, { (gcRWMutex c key).2 with env := e1 })
        | ((some item, none), e1) =>
          match J.Marshal item.Value with
          | Except.error err =>
            (Outcome.ret (some err), result, { (gcRWMutex c key).2 with env := e1 })
          | Except.ok body =>
            match Client.Set e1 key body item.Duration with
            | ((_, some err), e2) =>
              (Outcome.ret (some err), result, { (gcRWMutex c key).2 with env := e2 })
            | ((_, none), e2) =>
              (Outcome.ret (J.Unmarshal body result).1, (J.Unmarshal body result).2,
                { (gcRWMutex c key).2 with env := e2 }) := by
  have henv := gcRWMutex_env c key
  unfold mutexFree at hfree
  unfold GetOrSet
  rcases hg : gcRWMutex c key with ⟨mu, c1⟩
  rw [hg] at hfree henv
  simp only at hfree henv
  simp only [Lock, if_neg hfree, henv]
  rcases hr : Client.Get c.env key with ⟨⟨rel, rerr⟩, e0⟩
  cases rerr with
  | none => simp [Unlock]
  | some rerr =>
    simp only
    rcases hc : create e0 with ⟨⟨item, err⟩, e1⟩
    cases err with
    | some err => simp [Unlock]
    | none =>
      cases item with
      | none => simp [Unlock]
      | some item =>
        simp only
        cases hm : J.Marshal item.Value with
        | error err => simp [Unlock]
        | ok body =>
          simp only
          rcases hs : Client.Set e1 key body item.Duration with ⟨⟨st, werr⟩, e2⟩
          cases werr <;> simp [Unlock]

/-! ## `GetOrSet` -/

/-- C2: when the store read of `GetOrSet` returns no error, whatever bytes `rel` it
returns, the call returns what `json.Unmarshal` of those bytes into `result` gives;
the final state is the state after the read and does not depend on `create`, so the
factory is not invoked (the caller's memory, where a factory would count its
invocations, is as before) and nothing is written (the keyspace is as before); the
bytes are the value the keyspace bound to the key. -/
theorem GetOrSet_hit (J : Json V R) (c : Redis U) (key : String) (result : R)
    (create : Callback U (Option (Item V) × Option Error)) (rel : String) (e0 : Env U)
    (hfree : mutexFree c key)
    (hread : Client.Get c.env key = ((rel, none), e0)) :
    GetOrSet J c key result create =
        (Outcome.ret (J.Unmarshal rel result).1, (J.Unmarshal rel result).2,
          { (gcRWMutex c key).2 with env := e0 })
      ∧ (GetOrSet J c key result create).2.2.env.db = c.env.db
      ∧ (GetOrSet J c key result create).2.2.env.user = c.env.user
      ∧ ∃ en, c.env.db.read key = some en ∧ en.value = rel := by
  have hframe := Client.Get_frame c.env key
  rw [hread] at hframe
  have hcall : GetOrSet J c key result create =
      (Outcome.ret (J.Unmarshal rel result).1, (J.Unmarshal rel result).2,
        { (gcRWMutex c key).2 with env := e0 }) := by
    rw [GetOrSet_free J c key result create hfree, hread]
  refine ⟨hcall, ?_, ?_, Client.Get_ok c.env e0 key rel hread⟩
  · rw [hcall]; exact hframe.1
  · rw [hcall]; exact hframe.2

/-- C2 at a concrete input: the key `"k"` holds `"old"`, the counting factory is not
invoked. -/
theorem GetOrSet_hit_witness :
    GetOrSet plainJson busyRedis "k" "" countingCreate =
        (Outcome.ret none, "old", busyRedis)
      ∧ (GetOrSet plainJson busyRedis "k" "" countingCreate).2.2.env.user = 0 :=
  have h := GetOrSet_hit plainJson busyRedis "k" "" countingCreate "old" busyRedis.env
    (by decide) (by decide)
  ⟨by decide, h.2.2.1⟩

/-- C5: when `create` is invoked in `GetOrSet` (the store read returned an error) and
returns the error `err`, the call returns exactly `err`, leaves the sink as it was,
and ends in the state the factory left: no store command is issued after the
factory.  The read did not change the keyspace, so a factory that leaves the
keyspace alone gives a keyspace identical to the one before the call. -/
theorem GetOrSet_create_error (J : Json V R) (c : Redis U) (key : String) (result : R)
    (create : Callback U (Option (Item V) × Option Error)) (rel : String) (rerr : Error)
    (e0 e1 : Env U) (item : Option (Item V)) (err : Error)
    (hfree : mutexFree c key)
    (hread : Client.Get c.env key = ((rel, some rerr), e0))
    (hcreate : create e0 = ((item, some err), e1)) :
    GetOrSet J c key result create =
        (Outcome.ret (some err), result, { (gcRWMutex c key).2 with env := e1 })
      ∧ e0.db = c.env.db
      ∧ (e1.db = e0.db → (GetOrSet J c key result create).2.2.env.db = c.env.db) := by
  have hframe := Client.Get_frame c.env key
  rw [hread] at hframe
  have hcall : GetOrSet J c key result create =
      (Outcome.ret (some err), result, { (gcRWMutex c key).2 with env := e1 }) := by
    rw [GetOrSet_free J c key result create hfree, hread]
    simp only [hcreate]
  refine ⟨hcall, hframe.1, ?_⟩
  intro hdb
  rw [hcall]
  exact hdb.trans hframe.1

/-- C5 at a concrete input: `"k"` is absent, the factory fails with `boom` after one
invocation, and the keyspace stays empty. -/
theorem GetOrSet_create_error_witness :
    GetOrSet plainJson emptyRedis "k" "" failingCreate =
        (Outcome.ret (some (Error.user "boom")), "",
          { (gcRWMutex emptyRedis "k").2 with env := { db := [], faults := [], user := 1 } })
      ∧ (GetOrSet plainJson emptyRedis "k" "" failingCreate).2.2.env.db = [] :=
  have h := GetOrSet_create_error plainJson emptyRedis "k" "" failingCreate ""
    Error.redisNil emptyRedis.env { db := [], faults := [], user := 1 } none
    (Error.user "boom") (by decide) (by decide) (by decide)
  ⟨h.1, h.2.2 (by decide)⟩

/-- C7: for a key absent from the keyspace, a factory that returns the item
`(v, d)` without error, a successful `json.Marshal` of `v` into `body` and a store
write that returns no error: `GetOrSet` returns what `json.Unmarshal` of `body`, the
bytes just written, into `result` gives, and the keyspace then binds `key` to
`body` with expiration `d`. -/
theorem GetOrSet_miss_populates (J : Json V R) (c : Redis U) (key : String) (result : R)
    (create : Callback U (Option (Item V) × Option Error)) (v : V) (d : Int)
    (body st : String) (e1 e2 : Env U)
    (hfree : mutexFree c key)
    (habsent : c.env.db.read key = none)
    (hcreate : create (Client.Get c.env key).2 = ((some ⟨v, d⟩, none), e1))
    (hmarshal : J.Marshal v = Except.ok body)
    (hwrite : Client.Set e1 key body d = ((st, none), e2)) :
    GetOrSet J c key result create =
        (Outcome.ret (J.Unmarshal body result).1, (J.Unmarshal body result).2,
          { (gcRWMutex c key).2 with env := e2 })
      ∧ (GetOrSet J c key result create).2.2.env.db.read key = some ⟨body, d⟩ := by
  obtain ⟨rerr, hread⟩ := Client.Get_absent c.env key habsent
  have hcall : GetOrSet J c key result create =
      (Outcome.ret (J.Unmarshal body result).1, (J.Unmarshal body result).2,
        { (gcRWMutex c key).2 with env := e2 }) := by
    rw [GetOrSet_free J c key result create hfree, hread]
    simp only [hcreate, hmarshal, hwrite]
  refine ⟨hcall, ?_⟩
  rw [hcall]
  exact (Client.Set_ok e1 e2 key body st d hwrite).1

/-- C7 at a concrete input: `"k"` is absent, the counting factory produces `"v"` for
60, and the caller reads back `"v"`. -/
theorem GetOrSet_miss_populates_witness :
    GetOrSet plainJson emptyRedis "k" "" countingCreate =
        (Outcome.ret none, "v",
          { (gcRWMutex emptyRedis "k").2 with
            env := { db := [("k", ⟨"v", 60⟩)], faults := [], user := 1 } })
      ∧ (GetOrSet plainJson emptyRedis "k" "" countingCreate).2.2.env.db.read "k"
          = some ⟨"v", 60⟩ :=
  GetOrSet_miss_populates plainJson emptyRedis "k" "" countingCreate "v" 60 "v" "OK"
    { db := [], faults := [], user := 1 }
    { db := [("k", ⟨"v", 60⟩)], faults := [], user := 1 }
    (by decide) (by decide) (by decide) (by rfl) (by decide)

/-- C4, as stated, fails: the read of `"k"` fails with the transport error
`i/o timeout`, not with `redis.Nil`, and `GetOrSet` does not return that error: it
returns nil, the counting factory has been invoked once, and `"k"` has been
written. -/
theorem GetOrSet_read_error_not_propagated :
    (Client.Get faultyRedis.env "k").1.2 = some (Error.transport "i/o timeout")
      ∧ (GetOrSet plainJson faultyRedis "k" "" countingCreate).1
          ≠ Outcome.ret (some (Error.transport "i/o timeout"))
      ∧ (GetOrSet plainJson faultyRedis "k" "" countingCreate).1 = Outcome.ret none
      ∧ (GetOrSet plainJson faultyRedis "k" "" countingCreate).2.2.env.user = 1
      ∧ (GetOrSet plainJson faultyRedis "k" "" countingCreate).2.2.env.db.read "k"
          = some ⟨"v", 60⟩ := by
  decide

/-- C4, amended: when the store read of `GetOrSet` returns an error `rerr`, whether
`redis.Nil` or any other, the error is dropped and the call goes on as on a miss.
The factory runs once, on the state the read left.  If it fails with `err` the call
returns `err` and ends in the state the factory left; if it returns `(v, d)`, `v`
marshals into `body` and the store write returns no error, the call returns what
`json.Unmarshal` of `body` gives and the keyspace binds `key` to `body` with
expiration `d`. -/
theorem GetOrSet_read_error_is_miss (J : Json V R) (c : Redis U) (key : String)
    (result : R) (create : Callback U (Option (Item V) × Option Error)) (rel : String)
    (rerr : Error) (e0 : Env U)
    (hfree : mutexFree c key)
    (hread : Client.Get c.env key = ((rel, some rerr), e0)) :
    (∀ item err e1, create e0 = ((item, some err), e1) →
        GetOrSet J c key result create =
          (Outcome.ret (some err), result, { (gcRWMutex c key).2 with env := e1 }))
      ∧ (∀ v d body st e1 e2, create e0 = ((some ⟨v, d⟩, none), e1) →
          J.Marshal v = Except.ok body →
          Client.Set e1 key body d = ((st, none), e2) →
          GetOrSet J c key result create =
              (Outcome.ret (J.Unmarshal body result).1, (J.Unmarshal body result).2,
                { (gcRWMutex c key).2 with env := e2 })
            ∧ e2.db.read key = some ⟨body, d⟩) := by
  constructor
  · intro item err e1 hcreate
    rw [GetOrSet_free J c key result create hfree, hread]
    simp only [hcreate]
  · intro v d body st e1 e2 hcreate hmarshal hwrite
    refine ⟨?_, (Client.Set_ok e1 e2 key body st d hwrite).1⟩
    rw [GetOrSet_free J c key result create hfree, hread]
    simp only [hcreate, hmarshal, hwrite]

/-- C4, amended, at a concrete input: after the failed read of `"k"` the counting
factory runs and its value is written and read back. -/
theorem GetOrSet_read_error_is_miss_witness :
    GetOrSet plainJson faultyRedis "k" "" countingCreate =
        (Outcome.ret none, "v",
          { (gcRWMutex faultyRedis "k").2 with
            env := { db := [("k", ⟨"v", 60⟩)], faults := [], user := 1 } })
      ∧ ({ db := [("k", ⟨"v", 60⟩)], faults := [], user := 1 } : Env Nat).db.read "k"
          = some ⟨"v", 60⟩ :=
  (GetOrSet_read_error_is_miss plainJson faultyRedis "k" "" countingCreate ""
    (Error.transport "i/o timeout") { db := [], faults := [], user := 0 }
    (by decide) (by decide)).2 "v" 60 "v" "OK"
    { db := [], faults := [], user := 1 }
    { db := [("k", ⟨"v", 60⟩)], faults := [], user := 1 }
    (by decide) (by rfl) (by decide)

/-! ## `Set` followed by `Get` -/

/-- C8: whatever the keyspace held for `key`, when the factory returns the item
`(v, d)` without error, `v` marshals into `body` and the store write returns no
error, `Set` returns nil and leaves `key` bound to `body` with expiration `d` (an
old value is replaced); a `Get` that follows immediately, its round trip succeeding,
returns what `json.Unmarshal` of `body` into `result` gives.  In particular, when
the serializer round-trips `v`, decoding `body` without error into a value `r`,
`Get` returns nil and the sink holds `r`. -/
theorem Get_after_Set (J : Json V R) (c : Redis U) (key : String) (result : R)
    (create : Callback U (Option (Item V) × Option Error)) (v : V) (d : Int)
    (body st : String) (e1 e2 : Env U)
    (hfree : mutexFree c key)
    (hcreate : create c.env = ((some ⟨v, d⟩, none), e1))
    (hmarshal : J.Marshal v = Except.ok body)
    (hwrite : Client.Set e1 key body d = ((st, none), e2))
    (hround : (Client.roundTrip e2).1 = none) :
    Set J c key create = (Outcome.ret none, { (gcRWMutex c key).2 with env := e2 })
      ∧ (Set J c key create).2.env.db.read key = some ⟨body, d⟩
      ∧ (Get J (Set J c key create).2 key result).1 = (J.Unmarshal body result).1
      ∧ (Get J (Set J c key create).2 key result).2.1 = (J.Unmarshal body result).2
      ∧ ∀ r, J.Unmarshal body result = (none, r) →
          (Get J (Set J c key create).2 key result).1 = none
            ∧ (Get J (Set J c key create).2 key result).2.1 = r := by
  have hset : Set J c key create =
      (Outcome.ret none, { (gcRWMutex c key).2 with env := e2 }) := by
    rw [Set_free J c key create hfree]
    simp only [hcreate, hmarshal, hwrite]
  have hbound := (Client.Set_ok e1 e2 key body st d hwrite).1
  have hget : Client.Get e2 key = ((body, none), (Client.roundTrip e2).2) := by
    have hd := Client.roundTrip_db e2
    unfold Client.Get
    rcases hrt : Client.roundTrip e2 with ⟨_ | err, e3⟩
    · rw [hrt] at hd
      simp only at hd
      simp [hd, hbound]
    · rw [hrt] at hround
      simp at hround
  have hfetch : Get J (Set J c key create).2 key result =
      ((J.Unmarshal body result).1, (J.Unmarshal body result).2,
        { (Set J c key create).2 with env := (Client.roundTrip e2).2 }) := by
    rw [hset]
    simp only [Get, hget]
  refine ⟨hset, ?_, ?_, ?_, ?_⟩
  · rw [hset]; exact hbound
  · rw [hfetch]
  · rw [hfetch]
  · intro r hr
    rw [hfetch, hr]
    exact ⟨rfl, rfl⟩

/-- C8 at a concrete input: `"k"` holds `"old"`; after `Set` with the counting
factory, `Get` yields `"v"`. -/
theorem Get_after_Set_witness :
    (Set plainJson busyRedis "k" countingCreate).1 = Outcome.ret none
      ∧ (Get plainJson (Set plainJson busyRedis "k" countingCreate).2 "k" "").1 = none
      ∧ (Get plainJson (Set plainJson busyRedis "k" countingCreate).2 "k" "").2.1 = "v" :=
  have h := Get_after_Set plainJson busyRedis "k" "" countingCreate "v" 60 "v" "OK"
    { db := [("k", ⟨"old", 5⟩), ("L", ⟨"ok", 30⟩)], faults := [], user := 1 }
    { db := [("k", ⟨"v", 60⟩), ("L", ⟨"ok", 30⟩)], faults := [], user := 1 }
    (by decide) (by decide) (by rfl) (by decide) (by decide)
  ⟨congrArg Prod.fst h.1, h.2.2.2.2 "v" (by rfl)⟩

/-! ## `LockRun` -/

/-- A set-if-absent that reports the key as set has bound it to the value. -/
theorem SetNX_acquired (e e1 : Env U) (key value : String) (d : Int)
    (h : Client.SetNX e key value d = ((true, none), e1)) :
    e1.db.read key = some ⟨value, d⟩ := by
  unfold Client.SetNX at h
  rcases hrt : Client.roundTrip e with ⟨_ | err, e0⟩
  · rw [hrt] at h
    simp only at h
    cases hk : e0.db.read key with
    | some en => simp [hk] at h
    | none =>
      simp [hk] at h
      rw [← h]
      exact Table.read_write_self _ _ _
  · rw [hrt] at h
    simp at h

/-- C6: when the set-if-absent of `LockRun` acquires the lock (it returns `true`
without error, having bound `id` to `"ok"` with the timeout), `LockRun` runs `fn`
once, on the state the acquisition left, returns exactly what `fn` returned, nil or
an error, and ends in the state that `Del` of `id` makes of the state `fn` left:
the delete is issued whatever `fn` returned, and when its round trip succeeds the
lock key is absent afterwards. -/
theorem LockRun_acquired (c : Redis U) (id : String) (timeout : Int)
    (fn : Callback U (Option Error)) (e1 : Env U)
    (hacq : Client.SetNX c.env id "ok" timeout = ((true, none), e1)) :
    LockRun c id timeout fn =
        ((fn e1).1, { c with env := (Client.Del (fn e1).2 id).2 })
      ∧ e1.db.read id = some ⟨"ok", timeout⟩
      ∧ (LockRun c id timeout fn).2.env.user = (fn e1).2.user
      ∧ ((Client.roundTrip (fn e1).2).1 = none →
          (LockRun c id timeout fn).2.env.db.read id = none) := by
  have hcall : LockRun c id timeout fn =
      ((fn e1).1, { c with env := (Client.Del (fn e1).2 id).2 }) := by
    simp only [LockRun, hacq]
  refine ⟨hcall, SetNX_acquired c.env e1 id "ok" timeout hacq, ?_, ?_⟩
  · rw [hcall]
    exact Client.Del_user _ _
  · intro hround
    rw [hcall]
    exact Client.Del_ok _ _ hround

/-- C6 at a concrete input: the lock `"L"` is free, the critical section fails with
`boom` after one invocation, the error is returned and `"L"` is absent again. -/
theorem LockRun_acquired_witness :
    LockRun emptyRedis "L" 30 countingFn =
        (some (Error.user "boom"),
          { emptyRedis with env := { db := [], faults := [], user := 1 } })
      ∧ (LockRun emptyRedis "L" 30 countingFn).2.env.db.read "L" = none :=
  have h := LockRun_acquired emptyRedis "L" 30 countingFn
    { db := [("L", ⟨"ok", 30⟩)], faults := [], user := 0 } (by decide)
  ⟨h.1, h.2.2.2 (by decide)⟩

/-- C3, on the code: the lock key `"L"` is held, the set-if-absent reports
`(false, nil)`, and `LockRun` still runs the critical section (its counter is 1),
returns its error instead of the busy error, and deletes the lock key it did not
acquire. -/
theorem LockRun_held_lock_runs_fn :
    busyRedis.env.db.read "L" = some ⟨"ok", 30⟩
      ∧ (Client.SetNX busyRedis.env "L" "ok" 30).1 = (false, none)
      ∧ (LockRun busyRedis "L" 30 countingFn).1 = some (Error.user "boom")
      ∧ (LockRun busyRedis "L" 30 countingFn).1 ≠ some (busyError "L")
      ∧ (LockRun busyRedis "L" 30 countingFn).2.env.user = 1
      ∧ (LockRun busyRedis "L" 30 countingFn).2.env.db.read "L" = none := by
  decide

/-- C10, as stated, fails: the set-if-absent of `"L"` fails with the transport error
`i/o timeout` while the key is absent, and `LockRun` returns the busy error, the one
error it can build, not the store error. -/
theorem LockRun_store_error_is_busy :
    faultyRedis.env.db.read "L" = none
      ∧ (Client.SetNX faultyRedis.env "L" "ok" 30).1
          = (false, some (Error.transport "i/o timeout"))
      ∧ (LockRun faultyRedis "L" 30 countingFn).1 = some (busyError "L")
      ∧ (LockRun faultyRedis "L" 30 countingFn).1
          ≠ some (Error.transport "i/o timeout") := by
  decide

/-- C10, amended: when the set-if-absent of `LockRun` returns an error `err`,
`LockRun` returns the busy error built from `id`, whatever `err` is, and ends in the
state the failed command left: `fn` is not invoked (the result does not depend on
`fn`, and the caller's memory is as before) and the keyspace is as before. -/
theorem LockRun_store_error_reports_busy (c : Redis U) (id : String) (timeout : Int)
    (fn : Callback U (Option Error)) (b : Bool) (err : Error) (e1 : Env U)
    (hset : Client.SetNX c.env id "ok" timeout = ((b, some err), e1)) :
    LockRun c id timeout fn = (some (busyError id), { c with env := e1 })
      ∧ e1.user = c.env.user
      ∧ e1.db = c.env.db := by
  have hframe := Client.SetNX_error c.env e1 id "ok" timeout b err hset
  refine ⟨?_, hframe.2, hframe.1⟩
  simp only [LockRun, hset]

/-- C10, amended, at a concrete input: the set-if-absent fails with `i/o timeout`,
the busy error comes back and the critical section's counter is still 0. -/
theorem LockRun_store_error_reports_busy_witness :
    LockRun faultyRedis "L" 30 countingFn =
        (some (busyError "L"),
          { faultyRedis with env := { db := [], faults := [], user := 0 } })
      ∧ ({ db := [], faults := [], user := 0 } : Env Nat).user = faultyRedis.env.user :=
  have h := LockRun_store_error_reports_busy faultyRedis "L" 30 countingFn false
    (Error.transport "i/o timeout") { db := [], faults := [], user := 0 } (by decide)
  ⟨h.1, h.2.1⟩

/-! ## The registry -/

theorem Unlock_mus (c : Redis U) (m : Nat) : (Unlock c m).mus = c.mus := rfl

/-- `Set` leaves the registry as `gcRWMutex` made it, on every path. -/
theorem Set_mus (J : Json V R) (c : Redis U) (key : String)
    (create : Callback U (Option (Item V) × Option Error)) :
    (Set J c key create).2.mus = (gcRWMutex c key).2.mus := by
  unfold Set
  rcases hg : gcRWMutex c key with ⟨mu, c1⟩
  simp only [Lock]
  by_cases hm : mu ∈ c1.held
  · simp [hm]
  · simp only [if_neg hm]
    rcases hc : create c1.env with ⟨⟨item, err⟩, e1⟩
    cases err with
    | some err => simp [Unlock]
    | none =>
      cases item with
      | none => simp [Unlock]
      | some item =>
        simp only
        cases hj : J.Marshal item.Value with
        | error err => simp [Unlock]
        | ok body => simp [Unlock]

/-- `GetOrSet` leaves the registry as `gcRWMutex` made it, on every path. -/
theorem GetOrSet_mus (J : Json V R) (c : Redis U) (key : String) (result : R)
    (create : Callback U (Option (Item V) × Option Error)) :
    (GetOrSet J c key result create).2.2.mus = (gcRWMutex c key).2.mus := by
  unfold GetOrSet
  rcases hg : gcRWMutex c key with ⟨mu, c1⟩
  simp only [Lock]
  by_cases hm : mu ∈ c1.held
  · simp [hm]
  · simp only [if_neg hm]
    rcases hr : Client.Get c1.env key with ⟨⟨rel, rerr⟩, e0⟩
    cases rerr with
    | none => simp [Unlock]
    | some rerr =>
      simp only
      rcases hc : create e0 with ⟨⟨item, err⟩, e1⟩
      cases err with
      | some err => simp [Unlock]
      | none =>
        cases item with
        | none => simp [Unlock]
        | some item =>
          simp only
          cases hj : J.Marshal item.Value with
          | error err => simp [Unlock]
          | ok body =>
            simp only
            rcases hs : Client.Set e1 key body item.Duration with ⟨⟨st, werr⟩, e2⟩
            cases werr <;> simp [Unlock]

/-- `gcRWMutex` keeps every entry of the registry. -/
theorem registryLe_gcRWMutex (c : Redis U) (key : String) :
    registryLe c (gcRWMutex c key).2 := by
  intro k m hk
  unfold gcRWMutex
  cases hkey : c.mus.read key with
  | some m0 => exact hk
  | none =>
    have hne : k ≠ key := by
      intro h
      rw [h, hkey] at hk
      exact Option.noConfusion hk
    simp only
    rw [Table.read_write_ne c.mus key k c.nextMutex hne]
    exact hk

/-- After `gcRWMutex`, the registry maps `key` to the mutex returned. -/
theorem gcRWMutex_registered (c : Redis U) (key : String) :
    (gcRWMutex c key).2.mus.read key = some (gcRWMutex c key).1 := by
  unfold gcRWMutex
  cases hkey : c.mus.read key with
  | some m0 => exact hkey
  | none => exact Table.read_write_self _ _ _

/-- A value built by `NewRedis` starts with an empty registry, no mutex held and
no address in use. -/
theorem NewRedis_allocated (conn : Env U) (host : String) (port : Int)
    (password : String) (db : Int) (c : Redis U)
    (h : (NewRedis conn host port password db).1 = some c) :
    c.mus = [] ∧ c.held = [] ∧ allocated c := by
  unfold NewRedis at h
  rcases hp : Client.Ping conn with ⟨⟨pong, perr⟩, e1⟩
  rw [hp] at h
  cases perr with
  | some err => simp at h
  | none =>
    simp at h
    subst h
    refine ⟨rfl, rfl, ?_, ?_⟩
    · intro k m hk
      simp [Table.read] at hk
    · intro m hm
      simp at hm

/-- C9: the registry only grows and is stable per key.  `gcRWMutex` returns the
mutex registered for `key` when there is one, leaving the state as it was; otherwise
it registers and returns the next unused address, which no entry of the registry
holds when the addresses in use lie below it, a property `gcRWMutex` keeps.  Every
entry present before the call is present with the same mutex after it, the registry
then maps `key` to the mutex returned, and a later call with the same key, from any
state whose registry still has the entries, returns the same mutex.  `Get`, `Set`,
`GetOrSet`, `Remove` and `LockRun` keep every entry of the registry. -/
theorem gcRWMutex_registry (J : Json V R) (c : Redis U) (key : String) :
    (∀ m, c.mus.read key = some m → gcRWMutex c key = (m, c))
      ∧ (c.mus.read key = none →
          (gcRWMutex c key).1 = c.nextMutex
            ∧ (gcRWMutex c key).2.mus = c.mus.write key c.nextMutex
            ∧ (allocated c → ∀ k m, c.mus.read k = some m → m ≠ (gcRWMutex c key).1))
      ∧ (allocated c → allocated (gcRWMutex c key).2)
      ∧ registryLe c (gcRWMutex c key).2
      ∧ (gcRWMutex c key).2.mus.read key = some (gcRWMutex c key).1
      ∧ (∀ d : Redis U, registryLe (gcRWMutex c key).2 d →
          (gcRWMutex d key).1 = (gcRWMutex c key).1)
      ∧ (∀ (k : String) (result : R), registryLe c (Get J c k result).2.2)
      ∧ (∀ (k : String) (create : Callback U (Option (Item V) × Option Error)),
          registryLe c (Set J c k create).2)
      ∧ (∀ (k : String) (result : R)
          (create : Callback U (Option (Item V) × Option Error)),
          registryLe c (GetOrSet J c k result create).2.2)
      ∧ (∀ k : String, registryLe c (Remove c k))
      ∧ (∀ (id : String) (timeout : Int) (fn : Callback U (Option Error)),
          registryLe c (LockRun c id timeout fn).2) := by
  refine ⟨?_, ?_, ?_, registryLe_gcRWMutex c key, gcRWMutex_registered c key,
    ?_, ?_, ?_, ?_, ?_, ?_⟩
  · intro m hm
    simp only [gcRWMutex, hm]
  · intro hnone
    refine ⟨?_, ?_, ?_⟩
    · simp only [gcRWMutex, hnone]
    · simp only [gcRWMutex, hnone]
    · intro halloc k m hk
      have hlt := halloc.1 k m hk
      simp only [gcRWMutex, hnone]
      exact Nat.ne_of_lt hlt
  · intro halloc
    unfold gcRWMutex
    cases hkey : c.mus.read key with
    | some m0 => exact halloc
    | none =>
      refine ⟨?_, ?_⟩
      · intro k m hk
        simp only at hk ⊢
        by_cases hkk : k = key
        · rw [hkk, Table.read_write_self] at hk
          have hm : c.nextMutex = m := Option.some.inj hk
          omega
        · rw [Table.read_write_ne c.mus key k c.nextMutex hkk] at hk
          exact Nat.lt_succ_of_lt (halloc.1 k m hk)
      · intro m hm
        exact Nat.lt_succ_of_lt (halloc.2 m hm)
  · intro d hle
    have hd := hle key (gcRWMutex c key).1 (gcRWMutex_registered c key)
    simp only [gcRWMutex, hd]
  · intro k result k0 m hk
    unfold Get
    rcases hr : Client.Get c.env k with ⟨⟨rel, rerr⟩, e0⟩
    cases rerr <;> exact hk
  · intro k create k0 m hk
    rw [Set_mus J c k create]
    exact registryLe_gcRWMutex c k k0 m hk
  · intro k result create k0 m hk
    rw [GetOrSet_mus J c k result create]
    exact registryLe_gcRWMutex c k k0 m hk
  · intro k k0 m hk
    exact hk
  · intro id timeout fn k0 m hk
    unfold LockRun
    rcases hs : Client.SetNX c.env id "ok" timeout with ⟨⟨b, serr⟩, e1⟩
    cases serr <;> exact hk

end Redis

end Cache
